import Mathlib

/-!
Verification of the query-builder and statistics-aggregator core of the
task CRUD service (`src/controllers/task.controller.js` and
`src/services/task.service.js`), shallowly embedded in Lean 4.

Instants (dates) are modelled as integers; the JavaScript `new Date(s)`
conversion applied to a query string is modelled as an abstract function
`parseDate : String → Int` passed to the query builder.
-/

namespace TaskApp

/-- A task record, following the Mongoose schema in `models/task.schema.js`:
`title`, `description`, `category`, `priority` are strings, `deadline` is an
optional instant (`null` default, modelled by `none`), `completed` is a
boolean, and the store maintains `createdAt` / `updatedAt` timestamps. -/
structure Task where
  title : String
  description : String
  category : String
  priority : String
  deadline : Option Int
  completed : Bool
  createdAt : Int
  updatedAt : Int
deriving Repr, DecidableEq

/-- The optional list-query parameters destructured from `req.query` in
`TaskController.getTasks`.  Express delivers each present parameter as a
string; an absent parameter is `undefined`, modelled by `none`. -/
structure QueryParams where
  category : Option String
  priority : Option String
  completed : Option String
  sortBy : Option String
  sortOrder : Option String
  deadlineFrom : Option String
  deadlineTo : Option String
deriving Repr, DecidableEq

/-- JavaScript truthiness of an optional string, as used by the guards
`if (category)`, `if (deadlineFrom || deadlineTo)`, `if (sortBy)` in the
controller: `undefined` and the empty string are falsy, any other string is
truthy. -/
def strTruthy : Option String → Bool
  | none => false
  | some s => !(s == "")

/-- The `$gte` / `$lte` bounds of the `filter.deadline` range object built by
`TaskController.getTasks`; each bound is present only when the corresponding
query parameter was truthy. -/
structure DeadlineRange where
  gte : Option Int
  lte : Option Int
deriving Repr, DecidableEq

/-- The filter object built by `TaskController.getTasks`: a conjunction of an
optional exact-match predicate on `category`, `priority` and `completed`, and
an optional range predicate on `deadline`.  A `none` field means the key was
never attached to the JavaScript filter object. -/
structure Filter where
  category : Option String
  priority : Option String
  completed : Option Bool
  deadline : Option DeadlineRange
deriving Repr, DecidableEq

/-- The single-field sort object built by `TaskController.getTasks`:
a field name together with a direction, `1` for ascending and `-1` for
descending, as consumed by the store's `sort`. -/
structure SortSpec where
  field : String
  order : Int
deriving Repr, DecidableEq

/-- The filter with no keys attached (`const filter = {}`). -/
def Filter.empty : Filter :=
  { category := none, priority := none, completed := none, deadline := none }

/-- The query with every optional parameter absent. -/
def QueryParams.empty : QueryParams :=
  { category := none, priority := none, completed := none, sortBy := none
    sortOrder := none, deadlineFrom := none, deadlineTo := none }

namespace TaskController

/-- The filter-construction part of `TaskController.getTasks`
(`task.controller.js`, lines 25–36), written field by field: a key is present
in the resulting filter exactly when the corresponding conditional assignment
in the source fires.
* `if (category) filter.category = category;` — likewise `priority`;
* `if (completed !== undefined) filter.completed = completed === 'true';`
* `if (deadlineFrom || deadlineTo) { filter.deadline = {}; if (deadlineFrom)
  filter.deadline.$gte = new Date(deadlineFrom); if (deadlineTo)
  filter.deadline.$lte = new Date(deadlineTo); }` -/
def buildFilter (parseDate : String → Int) (q : QueryParams) : Filter :=
  { category := if strTruthy q.category then q.category else none
    priority := if strTruthy q.priority then q.priority else none
    completed :=
      match q.completed with
      | some c => some (c == "true")
      | none => none
    deadline :=
      if strTruthy q.deadlineFrom || strTruthy q.deadlineTo then
        some { gte := if strTruthy q.deadlineFrom then q.deadlineFrom.map parseDate else none
               lte := if strTruthy q.deadlineTo then q.deadlineTo.map parseDate else none }
      else none }

/-- The sort-construction part of `TaskController.getTasks`
(`task.controller.js`, lines 20 and 37–42).  `sortOrder = 'desc'` is the
destructuring default (applied only when the parameter is `undefined`);
`if (sortBy) { sort[sortBy] = sortOrder === 'asc' ? 1 : -1; } else
{ sort.createdAt = -1; }`. -/
def buildSort (q : QueryParams) : SortSpec :=
  let sortOrder := q.sortOrder.getD "desc"
  if strTruthy q.sortBy then
    { field := q.sortBy.getD "", order := if sortOrder == "asc" then 1 else -1 }
  else
    { field := "createdAt", order := -1 }

/-- The whole query-building phase of `TaskController.getTasks`: the pair
passed to `taskService.getTasks(filter, sort)`. -/
def getTasksQuery (parseDate : String → Int) (q : QueryParams) : Filter × SortSpec :=
  (buildFilter parseDate q, buildSort q)

end TaskController

/-- MongoDB matching semantics of the deadline range object on a task's
`deadline` value: each present bound is inclusive, and a document whose
`deadline` is `null`/absent never satisfies a `Date` range predicate. -/
def DeadlineRange.matches (r : DeadlineRange) (d : Option Int) : Bool :=
  match d with
  | none => false
  | some t =>
      (match r.gte with
       | none => true
       | some a => decide (a ≤ t)) &&
      (match r.lte with
       | none => true
       | some b => decide (t ≤ b))

/-- MongoDB matching semantics of the constructed filter against a task
record: the conjunction of all predicates whose key is present; an absent key
constrains nothing. -/
def Filter.matches (f : Filter) (t : Task) : Bool :=
  (match f.category with
   | none => true
   | some c => t.category == c) &&
  (match f.priority with
   | none => true
   | some p => t.priority == p) &&
  (match f.completed with
   | none => true
   | some b => t.completed == b) &&
  (match f.deadline with
   | none => true
   | some r => r.matches t.deadline)

/-- The statistics result shape returned by `TaskService.getTaskStats`.
The `byCategory` and `byPriority` JavaScript objects are modelled as
insertion-ordered association lists from key to count. -/
structure TaskStats where
  total : Nat
  completed : Nat
  pending : Nat
  overdue : Nat
  byCategory : List (String × Nat)
  byPriority : List (String × Nat)
deriving Repr, DecidableEq

namespace TaskService

/-- One step of the `reduce` in `getTaskStats`:
`acc[key] = (acc[key] || 0) + 1` on a plain JavaScript object — increment the
entry for `k` if present, otherwise append a new entry with count 1
(JavaScript objects preserve insertion order of string keys). -/
def bumpCount : List (String × Nat) → String → List (String × Nat)
  | [], k => [(k, 1)]
  | (k0, n) :: rest, k =>
      if k0 == k then (k0, n + 1) :: rest else (k0, n) :: bumpCount rest k

/-- `allTasks.reduce((acc, task) => { acc[key(task)] = (acc[key(task)] || 0) + 1;
return acc; }, {})` — the grouping reduce used for both `byCategory` and
`byPriority` in `getTaskStats`. -/
def countBy (key : Task → String) (tasks : List Task) : List (String × Nat) :=
  tasks.foldl (fun acc t => bumpCount acc (key t)) []

/-- The overdue test in `getTaskStats`:
`!task.completed && task.deadline && new Date(task.deadline) < now`.
A `null` deadline is falsy, so a task without a deadline is never overdue. -/
def isOverdue (now : Int) (t : Task) : Bool :=
  !t.completed &&
    (match t.deadline with
     | none => false
     | some d => decide (d < now))

/-- `TaskService.getTaskStats` (`task.service.js`, lines 24–54), as a function
of the evaluation instant `now` and the full record set `allTasks` returned by
`Task.find({})`. -/
def getTaskStats (now : Int) (allTasks : List Task) : TaskStats :=
  let total := allTasks.length
  let completed := (allTasks.filter (fun t => t.completed)).length
  let pending := total - completed
  let overdue := (allTasks.filter (fun t => isOverdue now t)).length
  let byCategory := countBy (fun t => t.category) allTasks
  let byPriority := countBy (fun t => t.priority) allTasks
  { total := total, completed := completed, pending := pending
    overdue := overdue, byCategory := byCategory, byPriority := byPriority }

end TaskService

/-- Sum of the counts of an association list, i.e. `sum(map.values())`. -/
def sumCounts (l : List (String × Nat)) : Nat :=
  (l.map Prod.snd).sum

/-! ## Helper lemmas -/

theorem length_filter_not_add (p : Task → Bool) (l : List Task) :
    (l.filter p).length + (l.filter (fun t => !(p t))).length = l.length := by
  induction l with
  | nil => rfl
  | cons hd tl ih =>
      by_cases h : p hd = true
      · simp [List.filter, h]; omega
      · simp [List.filter, h] at *; omega

/-! ## Claim theorems -/

/-- Claim C1: for every record set (and evaluation instant), the statistics
satisfy `pending = total - completed`, the counts `completed` and `pending`
partition the full set (`completed + pending = total`), and `pending` is
exactly the number of records with `completed = false`. -/
theorem stats_pending_partition (now : Int) (ts : List Task) :
    (TaskService.getTaskStats now ts).pending
        = (TaskService.getTaskStats now ts).total - (TaskService.getTaskStats now ts).completed
    ∧ (TaskService.getTaskStats now ts).completed + (TaskService.getTaskStats now ts).pending
        = (TaskService.getTaskStats now ts).total
    ∧ (TaskService.getTaskStats now ts).pending
        = (ts.filter (fun t => !t.completed)).length := by
  have hpart := length_filter_not_add (fun t => t.completed) ts
  have hle : (ts.filter (fun t => t.completed)).length ≤ ts.length :=
    List.length_filter_le _ _
  refine ⟨rfl, ?_, ?_⟩
  · show (ts.filter (fun t => t.completed)).length
        + (ts.length - (ts.filter (fun t => t.completed)).length) = ts.length
    omega
  · show ts.length - (ts.filter (fun t => t.completed)).length
        = (ts.filter (fun t => !t.completed)).length
    omega

/-- Claim C2: at every instant `now`, `overdue` counts exactly the records
with `completed = false` and a present deadline strictly before `now`; a
record with an absent deadline is never counted as overdue. -/
theorem stats_overdue_characterization (now : Int) (ts : List Task) :
    (TaskService.getTaskStats now ts).overdue
        = (ts.filter (fun t =>
            decide (t.completed = false) &&
            Option.any (fun d => decide (d < now)) t.deadline)).length
    ∧ ∀ t : Task, t.deadline = none → TaskService.isOverdue now t = false := by
  constructor
  · show (ts.filter (fun t => TaskService.isOverdue now t)).length = _
    congr 1
    apply List.filter_congr
    intro t _
    cases hc : t.completed <;> cases hd : t.deadline <;>
      simp [TaskService.isOverdue, hc, hd, Option.any]
  · intro t hd
    simp [TaskService.isOverdue, hd]

/-- A concrete incomplete task with a deadline, used in witnesses. -/
def sampleDue : Task :=
  { title := "a", description := "", category := "Work", priority := "High"
    deadline := some 3, completed := false, createdAt := 0, updatedAt := 0 }

/-- A concrete incomplete task without a deadline, used in witnesses. -/
def sampleNoDeadline : Task :=
  { title := "b", description := "", category := "Personal", priority := "Low"
    deadline := none, completed := false, createdAt := 0, updatedAt := 0 }

/-- Witness for C2 at a concrete instant and record set. -/
theorem stats_overdue_characterization_witness :
    (TaskService.getTaskStats 5 [sampleDue, sampleNoDeadline]).overdue
        = ([sampleDue, sampleNoDeadline].filter
             (fun t => decide (t.completed = false) &&
               Option.any (fun d => decide (d < (5 : Int))) t.deadline)).length
    ∧ ∀ t : TaskApp.Task, t.deadline = none → TaskService.isOverdue 5 t = false :=
  stats_overdue_characterization 5 [sampleDue, sampleNoDeadline]

/-- Claim C7: with no query parameters, the built filter has no keys, it
matches every record, and the built sort is `createdAt` descending. -/
theorem empty_query_spec (parseDate : String → Int) :
    TaskController.buildFilter parseDate QueryParams.empty = Filter.empty
    ∧ (∀ t : Task, (TaskController.buildFilter parseDate QueryParams.empty).matches t = true)
    ∧ TaskController.buildSort QueryParams.empty = { field := "createdAt", order := -1 } := by
  refine ⟨rfl, ?_, rfl⟩
  intro t
  rfl

/-- Claim C8: the empty record set yields all-zero counts and empty
category/priority mappings, at every evaluation instant. -/
theorem empty_store_stats (now : Int) :
    TaskService.getTaskStats now []
      = { total := 0, completed := 0, pending := 0, overdue := 0
          byCategory := [], byPriority := [] } := rfl

/-- Claim C9: the query builder and the statistics aggregator are
deterministic pure functions of their explicit inputs — equal inputs give
equal filter/sort specifications and equal statistics, with no hidden
state. -/
theorem purity_determinism :
    (∀ (pd₁ pd₂ : String → Int) (q₁ q₂ : QueryParams), pd₁ = pd₂ → q₁ = q₂ →
        TaskController.getTasksQuery pd₁ q₁ = TaskController.getTasksQuery pd₂ q₂)
    ∧ (∀ (now₁ now₂ : Int) (ts₁ ts₂ : List Task), now₁ = now₂ → ts₁ = ts₂ →
        TaskService.getTaskStats now₁ ts₁ = TaskService.getTaskStats now₂ ts₂) :=
  ⟨fun _ _ _ _ h₁ h₂ => by rw [h₁, h₂], fun _ _ _ _ h₁ h₂ => by rw [h₁, h₂]⟩

/-- Witness for C9 at concrete inputs. -/
theorem purity_determinism_witness :
    TaskController.getTasksQuery (fun _ => 0) QueryParams.empty
        = TaskController.getTasksQuery (fun _ => 0) QueryParams.empty
    ∧ TaskService.getTaskStats 0 [] = TaskService.getTaskStats 0 [] :=
  ⟨purity_determinism.1 _ _ _ _ rfl rfl, purity_determinism.2 _ _ _ _ rfl rfl⟩

/-- Claim C10: an empty-string value is treated as absent for `category`,
`priority`, `deadlineFrom` and `deadlineTo` (no predicate), but a
`completed` parameter given as the empty string does contribute a predicate,
namely `completed = false`; that filter matches a record exactly when its
`completed` field is `false`. -/
theorem empty_string_asymmetry (parseDate : String → Int) :
    TaskController.buildFilter parseDate
        { category := some "", priority := some "", completed := some ""
          sortBy := none, sortOrder := none, deadlineFrom := some "", deadlineTo := some "" }
      = { category := none, priority := none, completed := some false, deadline := none }
    ∧ ∀ t : Task,
        Filter.matches
            { category := none, priority := none, completed := some false, deadline := none } t
          = (t.completed == false) := by
  refine ⟨rfl, ?_⟩
  intro t
  simp [Filter.matches]

/-- The query with `sortOrder=asc` and every other parameter absent. -/
def qAscOnly : QueryParams :=
  { QueryParams.empty with sortOrder := some "asc" }

/-- Counterexample to C3 as stated: with `sortOrder="asc"` and `sortBy`
absent, the code takes the `else` branch and produces `createdAt`
*descending* (`-1`), not ascending (`1`) as the claim requires. -/
theorem sort_asc_default_cex :
    qAscOnly.sortBy = none ∧ qAscOnly.sortOrder = some "asc"
    ∧ TaskController.buildSort qAscOnly = { field := "createdAt", order := -1 }
    ∧ ((-1 : Int) ≠ 1) :=
  ⟨rfl, rfl, rfl, by decide⟩

/-- Claim C3 (amended): when `sortBy` is provided (non-empty), the sort uses
that field and its direction is ascending exactly when `sortOrder` is
`"asc"` (descending otherwise, including when `sortOrder` is absent); when
`sortBy` is absent or empty, the sort is `createdAt` descending regardless
of `sortOrder`. -/
theorem sort_spec (q : QueryParams) :
    (strTruthy q.sortBy = true →
        (TaskController.buildSort q).field = q.sortBy.getD ""
        ∧ ((TaskController.buildSort q).order = 1 ↔ q.sortOrder.getD "desc" = "asc")
        ∧ ((TaskController.buildSort q).order ≠ 1 →
            (TaskController.buildSort q).order = -1))
    ∧ (strTruthy q.sortBy = false →
        TaskController.buildSort q = { field := "createdAt", order := -1 }) := by
  constructor
  · intro h
    by_cases ho : q.sortOrder.getD "desc" = "asc" <;>
      simp [TaskController.buildSort, h, ho]
  · intro h
    simp [TaskController.buildSort, h]

/-- Witness for C3 (amended) at concrete queries: `sortBy=deadline` with
`sortOrder=asc`. -/
theorem sort_spec_witness :
    (strTruthy ({ QueryParams.empty with
        sortBy := some "deadline", sortOrder := some "asc" } : QueryParams).sortBy = true
      → (TaskController.buildSort { QueryParams.empty with
            sortBy := some "deadline", sortOrder := some "asc" }).field
          = (some "deadline").getD ""
        ∧ ((TaskController.buildSort { QueryParams.empty with
            sortBy := some "deadline", sortOrder := some "asc" }).order = 1
          ↔ (some "asc").getD "desc" = "asc")
        ∧ ((TaskController.buildSort { QueryParams.empty with
            sortBy := some "deadline", sortOrder := some "asc" }).order ≠ 1 →
            (TaskController.buildSort { QueryParams.empty with
              sortBy := some "deadline", sortOrder := some "asc" }).order = -1))
    ∧ (strTruthy ({ QueryParams.empty with
          sortBy := some "deadline", sortOrder := some "asc" } : QueryParams).sortBy = false
      → TaskController.buildSort { QueryParams.empty with
            sortBy := some "deadline", sortOrder := some "asc" }
          = { field := "createdAt", order := -1 }) :=
  sort_spec { QueryParams.empty with sortBy := some "deadline", sortOrder := some "asc" }

/-- Claim C4: a provided `completed` parameter contributes the predicate
`completed = (value = "true")` — `true` only for the literal string
`"true"`, `false` for every other string; an absent parameter contributes no
predicate; and a filter carrying a `completed` predicate matches only
records whose `completed` field equals the coerced boolean. -/
theorem completed_coercion (parseDate : String → Int) (q : QueryParams) :
    (∀ s, q.completed = some s →
        (TaskController.buildFilter parseDate q).completed = some (s == "true"))
    ∧ (q.completed = none → (TaskController.buildFilter parseDate q).completed = none)
    ∧ (∀ (t : Task) (b : Bool),
        (TaskController.buildFilter parseDate q).completed = some b →
        (TaskController.buildFilter parseDate q).matches t = true →
        t.completed = b) := by
  refine ⟨?_, ?_, ?_⟩
  · intro s hs
    simp [TaskController.buildFilter, hs]
  · intro hs
    simp [TaskController.buildFilter, hs]
  · intro t b hb hm
    simp only [Filter.matches, Bool.and_eq_true] at hm
    rw [hb] at hm
    have := hm.1.2
    simpa using this

/-- Witness for C4 at `completed="yes"` and a matching record. -/
theorem completed_coercion_witness :
    (∀ s, ({ QueryParams.empty with completed := some "yes" } : QueryParams).completed = some s →
        (TaskController.buildFilter (fun _ => 0)
            { QueryParams.empty with completed := some "yes" }).completed = some (s == "true"))
    ∧ (({ QueryParams.empty with completed := some "yes" } : QueryParams).completed = none →
        (TaskController.buildFilter (fun _ => 0)
            { QueryParams.empty with completed := some "yes" }).completed = none)
    ∧ (∀ (t : Task) (b : Bool),
        (TaskController.buildFilter (fun _ => 0)
            { QueryParams.empty with completed := some "yes" }).completed = some b →
        (TaskController.buildFilter (fun _ => 0)
            { QueryParams.empty with completed := some "yes" }).matches t = true →
        t.completed = b) :=
  completed_coercion (fun _ => 0) { QueryParams.empty with completed := some "yes" }

/-- Claim C6: the filter carries a deadline range exactly when at least one
bound parameter is present (non-empty); only the supplied bounds appear, via
`parseDate`, as inclusive `$gte`/`$lte` limits; and with both bounds given
and no other parameter, the filter matches a record exactly when its
deadline is present and lies in the inclusive window, with no other field
constrained. -/
theorem deadline_range_spec (parseDate : String → Int) (q : QueryParams)
    (sFrom sTo : String) (hf : sFrom ≠ "") (ht : sTo ≠ "") :
    ((TaskController.buildFilter parseDate q).deadline ≠ none
       ↔ (strTruthy q.deadlineFrom || strTruthy q.deadlineTo) = true)
    ∧ (∀ r, (TaskController.buildFilter parseDate q).deadline = some r →
        r.gte = (if strTruthy q.deadlineFrom then q.deadlineFrom.map parseDate else none)
        ∧ r.lte = (if strTruthy q.deadlineTo then q.deadlineTo.map parseDate else none))
    ∧ (∀ t : Task,
        (TaskController.buildFilter parseDate
            { QueryParams.empty with
                deadlineFrom := some sFrom, deadlineTo := some sTo }).matches t = true
          ↔ ∃ d, t.deadline = some d ∧ parseDate sFrom ≤ d ∧ d ≤ parseDate sTo) := by
  refine ⟨?_, ?_, ?_⟩
  · by_cases h : (strTruthy q.deadlineFrom || strTruthy q.deadlineTo) = true <;>
      simp [TaskController.buildFilter, h]
  · intro r hr
    by_cases h : (strTruthy q.deadlineFrom || strTruthy q.deadlineTo) = true
    · simp only [TaskController.buildFilter, h, if_true] at hr
      cases hr
      exact ⟨rfl, rfl⟩
    · simp [TaskController.buildFilter, h] at hr
  · intro t
    have hf' : strTruthy (some sFrom) = true := by simp [strTruthy, hf]
    have ht' : strTruthy (some sTo) = true := by simp [strTruthy, ht]
    simp only [TaskController.buildFilter, Filter.matches, QueryParams.empty]
    simp only [hf', ht']
    cases hd : t.deadline with
    | none => simp [DeadlineRange.matches, hd]
    | some d => simp [DeadlineRange.matches, hd, and_assoc]

/-- Witness for C6 at concrete bounds `"2024-01-01"`/`"2024-12-31"` (with
`parseDate` mapping them to 10 and 20) and an arbitrary query. -/
theorem deadline_range_spec_witness :
    (((TaskController.buildFilter (fun s => if s = "2024-01-01" then 10 else 20)
          QueryParams.empty).deadline ≠ none
       ↔ (strTruthy (QueryParams.empty).deadlineFrom
           || strTruthy (QueryParams.empty).deadlineTo) = true))
    ∧ (∀ r, (TaskController.buildFilter (fun s => if s = "2024-01-01" then 10 else 20)
          QueryParams.empty).deadline = some r →
        r.gte = (if strTruthy (QueryParams.empty).deadlineFrom
                 then (QueryParams.empty).deadlineFrom.map
                   (fun s => if s = "2024-01-01" then 10 else 20) else none)
        ∧ r.lte = (if strTruthy (QueryParams.empty).deadlineTo
                 then (QueryParams.empty).deadlineTo.map
                   (fun s => if s = "2024-01-01" then 10 else 20) else none))
    ∧ (∀ t : Task,
        (TaskController.buildFilter (fun s => if s = "2024-01-01" then 10 else 20)
            { QueryParams.empty with
                deadlineFrom := some "2024-01-01", deadlineTo := some "2024-12-31" }).matches t
          = true
          ↔ ∃ d, t.deadline = some d
              ∧ (fun s => if s = "2024-01-01" then (10 : Int) else 20) "2024-01-01" ≤ d
              ∧ d ≤ (fun s => if s = "2024-01-01" then (10 : Int) else 20) "2024-12-31") :=
  deadline_range_spec (fun s => if s = "2024-01-01" then 10 else 20) QueryParams.empty
    "2024-01-01" "2024-12-31" (by decide) (by decide)

theorem sumCounts_bumpCount (acc : List (String × Nat)) (k : String) :
    sumCounts (TaskService.bumpCount acc k) = sumCounts acc + 1 := by
  induction acc with
  | nil => rfl
  | cons hd tl ih =>
      obtain ⟨k0, n⟩ := hd
      by_cases h : (k0 == k) = true
      · simp [TaskService.bumpCount, h, sumCounts]
        omega
      · simp only [TaskService.bumpCount, h, if_false, Bool.false_eq_true]
        simp only [sumCounts, List.map_cons, List.sum_cons] at *
        omega

theorem sumCounts_foldl_bump (key : Task → String) (ts : List Task)
    (acc : List (String × Nat)) :
    sumCounts (ts.foldl (fun a t => TaskService.bumpCount a (key t)) acc)
      = sumCounts acc + ts.length := by
  induction ts generalizing acc with
  | nil => simp
  | cons hd tl ih =>
      simp only [List.foldl_cons, List.length_cons, ih, sumCounts_bumpCount]
      omega

theorem sumCounts_countBy (key : Task → String) (ts : List Task) :
    sumCounts (TaskService.countBy key ts) = ts.length := by
  simpa [sumCounts] using sumCounts_foldl_bump key ts []

theorem fst_mem_bumpCount (acc : List (String × Nat)) (k : String)
    (p : String × Nat) (hp : p ∈ TaskService.bumpCount acc k) :
    p.1 = k ∨ p.1 ∈ acc.map Prod.fst := by
  induction acc with
  | nil =>
      simp only [TaskService.bumpCount, List.mem_singleton] at hp
      subst hp
      exact Or.inl rfl
  | cons hd tl ih =>
      obtain ⟨k0, n⟩ := hd
      by_cases h : (k0 == k) = true
      · simp only [TaskService.bumpCount, h, if_true, List.mem_cons] at hp
        rcases hp with hp | hp
        · subst hp
          exact Or.inl (by simpa using h)
        · exact Or.inr (by simp [List.mem_map]; right; exact ⟨p.2, by simpa using hp⟩)
      · simp only [TaskService.bumpCount, h, if_false, Bool.false_eq_true,
          List.mem_cons] at hp
        rcases hp with hp | hp
        · subst hp
          exact Or.inr (by simp)
        · rcases ih hp with hk | hmem
          · exact Or.inl hk
          · exact Or.inr (by simp only [List.map_cons, List.mem_cons]; exact Or.inr hmem)

theorem pos_bumpCount (acc : List (String × Nat)) (k : String)
    (hacc : ∀ p ∈ acc, 0 < p.2) :
    ∀ p ∈ TaskService.bumpCount acc k, 0 < p.2 := by
  induction acc with
  | nil =>
      intro p hp
      simp only [TaskService.bumpCount, List.mem_singleton] at hp
      subst hp
      exact Nat.one_pos
  | cons hd tl ih =>
      obtain ⟨k0, n⟩ := hd
      intro p hp
      by_cases h : (k0 == k) = true
      · simp only [TaskService.bumpCount, h, if_true, List.mem_cons] at hp
        rcases hp with hp | hp
        · subst hp
          exact Nat.succ_pos n
        · exact hacc p (List.mem_cons_of_mem _ hp)
      · simp only [TaskService.bumpCount, h, if_false, Bool.false_eq_true,
          List.mem_cons] at hp
        rcases hp with hp | hp
        · subst hp
          exact hacc (k0, n) (by simp)
        · exact ih (fun q hq => hacc q (List.mem_cons_of_mem _ hq)) p hp

theorem fst_mem_foldl_bump (key : Task → String) (ts : List Task)
    (acc : List (String × Nat)) (p : String × Nat)
    (hp : p ∈ ts.foldl (fun a t => TaskService.bumpCount a (key t)) acc) :
    p.1 ∈ acc.map Prod.fst ∨ ∃ t ∈ ts, key t = p.1 := by
  induction ts generalizing acc with
  | nil =>
      exact Or.inl (List.mem_map_of_mem _ (by simpa using hp))
  | cons hd tl ih =>
      simp only [List.foldl_cons] at hp
      rcases ih (TaskService.bumpCount acc (key hd)) hp with hmem | ⟨t, htl, hk⟩
      · rcases List.mem_map.mp hmem with ⟨q, hq, hfst⟩
        rcases fst_mem_bumpCount acc (key hd) q hq with hk | hmem'
        · exact Or.inr ⟨hd, by simp, by rw [← hfst, hk]⟩
        · exact Or.inl (hfst ▸ hmem')
      · exact Or.inr ⟨t, List.mem_cons_of_mem _ htl, hk⟩

theorem pos_foldl_bump (key : Task → String) (ts : List Task)
    (acc : List (String × Nat)) (hacc : ∀ p ∈ acc, 0 < p.2) :
    ∀ p ∈ ts.foldl (fun a t => TaskService.bumpCount a (key t)) acc, 0 < p.2 := by
  induction ts generalizing acc with
  | nil => simpa using hacc
  | cons hd tl ih =>
      intro p hp
      simp only [List.foldl_cons] at hp
      exact ih (TaskService.bumpCount acc (key hd)) (pos_bumpCount acc (key hd) hacc) p hp

theorem countBy_entry (key : Task → String) (ts : List Task)
    (p : String × Nat) (hp : p ∈ TaskService.countBy key ts) :
    (∃ t ∈ ts, key t = p.1) ∧ 0 < p.2 := by
  constructor
  · rcases fst_mem_foldl_bump key ts [] p hp with hmem | h
    · simp at hmem
    · exact h
  · exact pos_foldl_bump key ts [] (by simp) p hp

/-- Claim C5: over every non-empty record set, the values of `byCategory`
sum to `total`, as do the values of `byPriority`; every key present in
either mapping has a strictly positive count and comes from some record, so
categories/priorities with zero matching records are omitted, never
zero-filled. -/
theorem stats_group_sums (now : Int) (ts : List Task) (_hne : ts ≠ []) :
    sumCounts (TaskService.getTaskStats now ts).byCategory
        = (TaskService.getTaskStats now ts).total
    ∧ sumCounts (TaskService.getTaskStats now ts).byPriority
        = (TaskService.getTaskStats now ts).total
    ∧ (∀ p ∈ (TaskService.getTaskStats now ts).byCategory,
        0 < p.2 ∧ ∃ t ∈ ts, t.category = p.1)
    ∧ (∀ p ∈ (TaskService.getTaskStats now ts).byPriority,
        0 < p.2 ∧ ∃ t ∈ ts, t.priority = p.1) := by
  refine ⟨?_, ?_, ?_, ?_⟩
  · exact sumCounts_countBy (fun t => t.category) ts
  · exact sumCounts_countBy (fun t => t.priority) ts
  · intro p hp
    have := countBy_entry (fun t => t.category) ts p hp
    exact ⟨this.2, this.1⟩
  · intro p hp
    have := countBy_entry (fun t => t.priority) ts p hp
    exact ⟨this.2, this.1⟩

/-- Witness for C5 at a concrete two-record set. -/
theorem stats_group_sums_witness :
    ([sampleDue, sampleNoDeadline] : List Task) ≠ []
    ∧ (sumCounts (TaskService.getTaskStats 5 [sampleDue, sampleNoDeadline]).byCategory
          = (TaskService.getTaskStats 5 [sampleDue, sampleNoDeadline]).total
      ∧ sumCounts (TaskService.getTaskStats 5 [sampleDue, sampleNoDeadline]).byPriority
          = (TaskService.getTaskStats 5 [sampleDue, sampleNoDeadline]).total
      ∧ (∀ p ∈ (TaskService.getTaskStats 5 [sampleDue, sampleNoDeadline]).byCategory,
          0 < p.2 ∧ ∃ t ∈ [sampleDue, sampleNoDeadline], t.category = p.1)
      ∧ (∀ p ∈ (TaskService.getTaskStats 5 [sampleDue, sampleNoDeadline]).byPriority,
          0 < p.2 ∧ ∃ t ∈ [sampleDue, sampleNoDeadline], t.priority = p.1)) :=
  ⟨by simp, stats_group_sums 5 [sampleDue, sampleNoDeadline] (by simp)⟩

end TaskApp
